import Mathlib

/-!
Shallow embedding of the block-executor VM wrapper
(aptos-move/aptos-vm/src/block_executor/vm_wrapper.rs): the per-worker
executor task that drives the VM for speculative, parallel block execution.
Collaborators whose code is not part of the embedded source (the VM itself,
the delta materializer, the write-op converter) are modelled from the
specification, as noted on each such definition.
-/

namespace VmWrapper

/-- State keys, abstracted to naturals. -/
abbrev StateKey := Nat

/-- Raw byte values, abstracted to lists of naturals. -/
abbrev Bytes := List Nat

/-- VM status codes, abstracted to naturals. -/
abbrev VMStatus := Nat

/-- Sender account addresses, abstracted to naturals. -/
abbrev Sender := Nat

/-- Module identifiers, abstracted to naturals. -/
abbrev ModuleId := Nat

/-- Preprocessed transactions, abstracted to identifiers; the transaction
semantics lives in the VM model. -/
abbrev Txn := Nat

/-- Storage-slot metadata values, abstracted to naturals. -/
abbrev Metadata := Nat

/-- The underlying cause of a write-op conversion failure; carried concretely
so that its erasure at the adapter boundary can be stated. -/
abbrev ConvErr := Nat

/-- A state view: point lookups of values by key (the StateView trait / the
move resolver built over it). -/
abbrev View := StateKey → Option Int

/-- The raw VM transaction output: whether its status is discarded, whether
it indicates a reconfiguration, its deferred aggregator deltas, and its
write set. -/
structure VMOutput where
  discarded : Bool
  reconfig : Bool
  deltas : List (StateKey × Int)
  writes : List (StateKey × Option Int)
deriving DecidableEq, Repr

/-- Move-level storage operations (move_core_types effects Op). -/
inductive MoveStorageOp where
  | New (b : Bytes)
  | Modify (b : Bytes)
  | Delete
deriving DecidableEq, Repr

/-- Final storage write operations: creation, modification or deletion, with
folded-in storage-slot metadata. -/
inductive WriteOp where
  | Creation (v : Bytes) (m : Option Metadata)
  | Modification (v : Bytes) (m : Option Metadata)
  | Deletion (m : Option Metadata)
deriving DecidableEq, Repr

/-- Per-transaction execution status returned to the block executor
(aptos_block_executor task ExecutionStatus). -/
inductive ExecutionStatus (O E : Type) where
  | Success (o : O)
  | SkipRest (o : O)
  | Abort (e : E)
deriving DecidableEq, Repr

/-- Diagnostic events emitted through the speculative logger during one
execution attempt. -/
inductive TraceEvent where
  | discardedWithSender (s : Sender) (st : VMStatus)
  | malformed (st : VMStatus)
  | reconfigInfo
deriving DecidableEq, Repr

/-- The adapter output type wrapping a raw VM output. -/
structure AptosTransactionOutput where
  output : VMOutput
deriving DecidableEq, Repr

def AptosTransactionOutput.new (o : VMOutput) : AptosTransactionOutput := ⟨o⟩

def ExecutionStatus.isSuccess : ExecutionStatus O E → Bool
  | .Success _ => true
  | _ => false

def ExecutionStatus.isSkipRest : ExecutionStatus O E → Bool
  | .SkipRest _ => true
  | _ => false

def ExecutionStatus.isAbort : ExecutionStatus O E → Bool
  | .Abort _ => true
  | _ => false

/-- The output payload carried by a non-Abort status. -/
def ExecutionStatus.payload : ExecutionStatus O E → Option O
  | .Success o => some o
  | .SkipRest o => some o
  | .Abort _ => none

/-- Whether a trace event is a discarded-transaction diagnostic (as opposed
to the reconfiguration info message). -/
def TraceEvent.isDiagnostic : TraceEvent → Bool
  | .discardedWithSender _ _ => true
  | .malformed _ => true
  | .reconfigInfo => false

/-- The diagnostic the adapter emits for a discarded transaction: it names
the sender when a sender identity is known, otherwise it notes malformed
input. -/
def expectedDiscardTrace (sender : Option Sender) (st : VMStatus) : TraceEvent :=
  match sender with
  | some s => TraceEvent.discardedWithSender s st
  | none => TraceEvent.malformed st

def WriteOp.isDeletionClass : WriteOp → Bool
  | .Deletion _ => true
  | _ => false

def WriteOp.isCreationClass : WriteOp → Bool
  | .Creation _ _ => true
  | _ => false

def WriteOp.isModificationClass : WriteOp → Bool
  | .Modification _ _ => true
  | _ => false

/-- True when a conversion result, if it succeeded, satisfies the class
predicate; a failed conversion carries no operation to classify. -/
def okImplies (r : Except String WriteOp) (p : WriteOp → Bool) : Bool :=
  match r with
  | .ok w => p w
  | .error _ => true

/-- Modelled from the spec: resolve one deferred delta (the code of
DeltaOp application is outside the embedded source). Reads the target key
through the view for the base value and applies the numeric adjustment;
fails when the base value is missing. -/
def resolveDelta (view : View) (d : StateKey × Int) : Option (StateKey × Option Int) :=
  match view d.1 with
  | none => none
  | some base => some (d.1, some (base + d.2))

/-- Modelled from the spec: resolve every deferred delta in order; any single
failure fails the whole resolution. -/
def resolveDeltas (view : View) : List (StateKey × Int) → Option (List (StateKey × Option Int))
  | [] => some []
  | d :: ds =>
    match resolveDelta view d, resolveDeltas view ds with
    | some r, some rs => some (r :: rs)
    | _, _ => none

/-- Modelled from the spec: the Delta Materializer (VMOutput try_materialize
is outside the embedded source). Replaces every deferred delta with the
concrete value obtained by reading its target key through the view; the
resolved entries join the write set and no deltas remain. -/
def VMOutput.try_materialize (o : VMOutput) (view : View) : Option VMOutput :=
  match resolveDeltas view o.deltas with
  | none => none
  | some rs => some { o with deltas := [], writes := o.writes ++ rs }

/-- Modelled from the spec: the deterministic transaction semantics of the
VM (AptosVM execute_single_transaction is outside the embedded source).
The VM declares which keys a transaction reads, and its result is a pure
function of the transaction and the values of exactly those keys; it also
supplies the metadata policy used by the write-op converter. -/
structure VMSem where
  readKeys : Txn → List StateKey
  runTxn : Txn → List (Option Int) → Except VMStatus (VMStatus × VMOutput × Option Sender)
  metaFor : View → Bool → StateKey → MoveStorageOp → Except ConvErr (Option Metadata)

/-- VM configuration read from on-chain state at construction. -/
structure VMConfig where
  storage_slot_metadata_enabled : Bool
deriving DecidableEq, Repr

/-- The per-worker VM instance: configuration, bytecode cache, and the
modelled transaction semantics. -/
structure AptosVM where
  config : VMConfig
  cache : List ModuleId
  sem : VMSem

/-- The storage adapter wrapping a state view (config fetching); modelled as
the view itself. -/
def StorageAdapter.new (v : View) : View := v

/-- The key under which the storage-slot metadata feature flag is stored. -/
def storage_slot_metadata_flag_key : StateKey := 0

/-- Modelled from the spec: AptosVM construction (AptosVM new is outside the
embedded source) reads VM configuration, here the storage-slot metadata
policy flag, from a read-only view of base state; the bytecode cache starts
empty. -/
def AptosVM.new (sem : VMSem) (config_storage : View) : AptosVM :=
  { config := { storage_slot_metadata_enabled :=
      (config_storage storage_slot_metadata_flag_key).isSome },
    cache := [],
    sem := sem }

def AptosVM.is_storage_slot_metadata_enabled (vm : AptosVM) : Bool :=
  vm.config.storage_slot_metadata_enabled

/-- The move resolver over a state view; modelled as the view itself. -/
def AptosVM.as_move_resolver (_vm : AptosVM) (view : View) : View := view

/-- Modelled from the spec: the module resolver derived from a state view; a
module is resolvable when the view holds a value for it. -/
def AptosVM.module_resolver (_vm : AptosVM) (view : View) : ModuleId → Bool :=
  fun m => (view m).isSome

/-- The identifier of the well-known warm-up module (0x1 account). -/
def account_module_id : ModuleId := 1

/-- Modelled from the spec: best-effort module loading (AptosVM load_module
is outside the embedded source). On success the module enters the bytecode
cache; on failure the VM is unchanged; either way a result is reported. -/
def AptosVM.load_module (vm : AptosVM) (id : ModuleId) (resolver : ModuleId → Bool) :
    Except Unit Unit × AptosVM :=
  if resolver id then (Except.ok (), { vm with cache := id :: vm.cache })
  else (Except.error (), vm)

/-- Modelled from the spec: whether the output indicates a reconfiguration
occurred (AptosVM should_restart_execution is outside the embedded
source). -/
def AptosVM.should_restart_execution (o : VMOutput) : Bool := o.reconfig

/-- Modelled from the spec: running one transaction through the VM against a
resolver view, obtaining a raw status, a raw output and, when one could be
identified, a sender — or a VM-level error. The result depends only on the
values the view gives for the keys the transaction reads. -/
def AptosVM.execute_single_transaction (vm : AptosVM) (txn : Txn) (resolver : View) :
    Except VMStatus (VMStatus × VMOutput × Option Sender) :=
  vm.sem.runTxn txn ((vm.sem.readKeys txn).map resolver)

/-- The per-worker executor task: one VM and a handle to the base view. -/
structure AptosExecutorTask where
  vm : AptosVM
  base_view : View

/-- Embeds AptosExecutorTask init: build the VM from configs fetched through
a storage adapter over the argument view, then perform the best-effort
warm-up load of the account module, discarding its result. -/
def AptosExecutorTask.init (sem : VMSem) (argument : View) : AptosExecutorTask :=
  let config_storage := StorageAdapter.new argument
  let vm := AptosVM.new sem config_storage
  let warm := vm.load_module account_module_id (vm.module_resolver argument)
  { vm := warm.2, base_view := argument }

/-- Embeds AptosExecutorTask execute_transaction. The result is an Option:
none embeds the process abort of the expect call on delta materialization
failure; some carries the execution status together with the trace events
emitted through the speculative logger. -/
def AptosExecutorTask.execute_transaction (task : AptosExecutorTask) (view : View)
    (txn : Txn) (_txn_idx : Nat) (materialize_deltas : Bool) :
    Option (ExecutionStatus AptosTransactionOutput VMStatus × List TraceEvent) :=
  match task.vm.execute_single_transaction txn (task.vm.as_move_resolver view) with
  | .ok (vm_status, vm_output0, sender) =>
    match (if materialize_deltas then vm_output0.try_materialize view else some vm_output0) with
    | none => none
    | some vm_output =>
      let discard_traces : List TraceEvent :=
        if vm_output.discarded then [expectedDiscardTrace sender vm_status] else []
      if AptosVM.should_restart_execution vm_output then
        some (.SkipRest (AptosTransactionOutput.new vm_output),
          discard_traces ++ [TraceEvent.reconfigInfo])
      else
        some (.Success (AptosTransactionOutput.new vm_output), discard_traces)
  | .error err => some (.Abort err, [])

/-- The keys an execution attempt actually reads through the view: the keys
the VM reads, plus, when deltas are materialized and the VM succeeded, the
target keys of the output's deferred deltas. -/
def AptosExecutorTask.keys_read (task : AptosExecutorTask) (view : View) (txn : Txn)
    (materialize_deltas : Bool) : List StateKey :=
  let rks := task.vm.sem.readKeys txn
  match task.vm.execute_single_transaction txn (task.vm.as_move_resolver view) with
  | .ok (_, out, _) =>
    if materialize_deltas then rks ++ out.deltas.map Prod.fst else rks
  | .error _ => rks

/-- The output payload of an execution attempt, when it returned a
non-Abort status. -/
def executePayload
    (r : Option (ExecutionStatus AptosTransactionOutput VMStatus × List TraceEvent)) :
    Option AptosTransactionOutput :=
  match r with
  | some (s, _) => s.payload
  | none => none

/-- The write-op converter, built over a remote view and the storage-slot
metadata flag; the metadata-aware conversion itself comes from the modelled
policy. -/
structure WriteOpConverter where
  remote : View
  new_slot_metadata : Bool
  metaFor : View → Bool → StateKey → MoveStorageOp → Except ConvErr (Option Metadata)

def WriteOpConverter.new (remote : View) (enabled : Bool)
    (metaFor : View → Bool → StateKey → MoveStorageOp → Except ConvErr (Option Metadata)) :
    WriteOpConverter :=
  { remote := remote, new_slot_metadata := enabled, metaFor := metaFor }

/-- Modelled from the spec: the metadata-aware conversion (WriteOpConverter
convert is outside the embedded source). It folds in the metadata the
policy computes, which may fail for any reason; the class of the resulting
write operation matches the class of the Move-level operation. -/
def WriteOpConverter.convert (wc : WriteOpConverter) (key : StateKey)
    (op : MoveStorageOp) (_legacy : Bool) : Except ConvErr WriteOp :=
  match wc.metaFor wc.remote wc.new_slot_metadata key op with
  | .error e => .error e
  | .ok m =>
    match op with
    | .New b => .ok (.Creation b m)
    | .Modify b => .ok (.Modification b m)
    | .Delete => .ok (.Deletion m)

/-- Embeds the Move-level operation built inside convert_to_value from the
optional blob and the creation flag. -/
def buildMoveOp : Option Bytes → Bool → MoveStorageOp
  | some blob, true => .New blob
  | some blob, false => .Modify blob
  | none, _ => .Delete

/-- Embeds AptosExecutorTask convert_to_value: build the converter over the
resolver and the metadata flag, build the Move-level operation, convert it,
and erase any failure into one generic message. -/
def AptosExecutorTask.convert_to_value (task : AptosExecutorTask) (view : View)
    (key : StateKey) (maybe_blob : Option Bytes) (creation : Bool) :
    Except String WriteOp :=
  let storage_adapter := task.vm.as_move_resolver view
  let wop_converter := WriteOpConverter.new storage_adapter
    task.vm.is_storage_slot_metadata_enabled task.vm.sem.metaFor
  let move_op := buildMoveOp maybe_blob creation
  match wop_converter.convert key move_op false with
  | .ok w => .ok w
  | .error _ => .error "Error on converting to WriteOp"

/-! Concrete sample semantics, views and tasks used to exercise the
embedding on closed inputs. -/

/-- A view holding no value at any key. -/
def viewEmpty : View := fun _ => none

/-- A sample VM output that indicates a reconfiguration. -/
def outC1 : VMOutput :=
  { discarded := false, reconfig := true, deltas := [], writes := [] }

def semC1 : VMSem :=
  { readKeys := fun _ => [],
    runTxn := fun _ _ => .ok (0, outC1, some 7),
    metaFor := fun _ _ _ _ => .ok none }

def taskC1 : AptosExecutorTask := AptosExecutorTask.init semC1 viewEmpty

/-- A sample VM output whose status is discarded. -/
def outC2 : VMOutput :=
  { discarded := true, reconfig := false, deltas := [], writes := [] }

def semC2 : VMSem :=
  { readKeys := fun _ => [],
    runTxn := fun _ _ => .ok (3, outC2, some 5),
    metaFor := fun _ _ _ _ => .ok none }

def taskC2 : AptosExecutorTask := AptosExecutorTask.init semC2 viewEmpty

def semC3 : VMSem :=
  { readKeys := fun _ => [],
    runTxn := fun _ _ => .error 42,
    metaFor := fun _ _ _ _ => .ok none }

def taskC3 : AptosExecutorTask := AptosExecutorTask.init semC3 viewEmpty

/-- A sample VM output carrying one deferred delta at key 5. -/
def outC4 : VMOutput :=
  { discarded := false, reconfig := false, deltas := [(5, 10)], writes := [] }

def semC4 : VMSem :=
  { readKeys := fun _ => [],
    runTxn := fun _ _ => .ok (0, outC4, some 2),
    metaFor := fun _ _ _ _ => .ok none }

def taskC4 : AptosExecutorTask := AptosExecutorTask.init semC4 viewEmpty

def semC6 : VMSem :=
  { readKeys := fun _ => [],
    runTxn := fun _ _ => .ok (0, outC1, none),
    metaFor := fun _ _ _ _ => .ok (some 3) }

def taskC6 : AptosExecutorTask := AptosExecutorTask.init semC6 viewEmpty

/-- A sample semantics whose metadata policy fails with cause 9. -/
def semC7 : VMSem :=
  { readKeys := fun _ => [],
    runTxn := fun _ _ => .ok (0, outC1, none),
    metaFor := fun _ _ _ _ => .error 9 }

def taskC7 : AptosExecutorTask := AptosExecutorTask.init semC7 viewEmpty

/-- A sample semantics that reads key 2 and writes what it saw to key 3. -/
def semC9 : VMSem :=
  { readKeys := fun _ => [2],
    runTxn := fun _ vals =>
      .ok (0, { discarded := false, reconfig := false, deltas := [],
                writes := [(3, vals.headD none)] }, some 1),
    metaFor := fun _ _ _ _ => .ok none }

def taskC9 : AptosExecutorTask := AptosExecutorTask.init semC9 viewEmpty

/-- Agrees with viewC9b at key 2 (the only key read) and differs elsewhere. -/
def viewC9a : View := fun k => if k = 2 then some 4 else some 50

def viewC9b : View := fun k => if k = 2 then some 4 else none

/-- A sample VM output with one prior write and one deferred delta. -/
def outC10 : VMOutput :=
  { discarded := false, reconfig := false, deltas := [(5, 10)], writes := [(1, some 3)] }

/-- The materialization of outC10 against viewC10: base 7 plus delta 10. -/
def outC10m : VMOutput :=
  { discarded := false, reconfig := false, deltas := [], writes := [(1, some 3), (5, some 17)] }

def semC10 : VMSem :=
  { readKeys := fun _ => [],
    runTxn := fun _ _ => .ok (0, outC10, some 2),
    metaFor := fun _ _ _ _ => .ok none }

def viewC10 : View := fun k => if k = 5 then some 7 else none

def taskC10 : AptosExecutorTask := AptosExecutorTask.init semC10 viewC10

/-! Helper lemmas shared by the claim theorems. -/

/-- Materialization leaves the reconfiguration and discarded flags of an
output unchanged. -/
theorem try_materialize_flags (o o2 : VMOutput) (view : View)
    (h : o.try_materialize view = some o2) :
    o2.reconfig = o.reconfig ∧ o2.discarded = o.discarded := by
  unfold VMOutput.try_materialize at h
  cases hm : resolveDeltas view o.deltas with
  | none => rw [hm] at h; exact absurd h (by simp)
  | some rs =>
    rw [hm] at h
    simp only [Option.some.injEq] at h
    subst h
    exact ⟨rfl, rfl⟩

/-- The reconfiguration info message is not a diagnostic trace event. -/
theorem reconfigInfo_not_diagnostic :
    TraceEvent.isDiagnostic TraceEvent.reconfigInfo = false := rfl

/-- The discarded-transaction diagnostic is a diagnostic trace event. -/
theorem expectedDiscardTrace_isDiagnostic (sender : Option Sender) (st : VMStatus) :
    (expectedDiscardTrace sender st).isDiagnostic = true := by
  cases sender <;> rfl

/-- Delta resolution only depends on the view at the delta target keys. -/
theorem resolveDeltas_congr (view1 view2 : View) (ds : List (StateKey × Int))
    (h : ∀ k ∈ ds.map Prod.fst, view1 k = view2 k) :
    resolveDeltas view1 ds = resolveDeltas view2 ds := by
  induction ds with
  | nil => rfl
  | cons d ds ih =>
    have hd : view1 d.1 = view2 d.1 := h d.1 (by simp)
    have ht : resolveDeltas view1 ds = resolveDeltas view2 ds :=
      ih (fun k hk => h k (by simp [hk]))
    have hr : resolveDelta view1 d = resolveDelta view2 d := by
      unfold resolveDelta; rw [hd]
    simp only [resolveDeltas]
    rw [hr, ht]

/-- Materialization only depends on the view at the delta target keys. -/
theorem try_materialize_congr (o : VMOutput) (view1 view2 : View)
    (h : ∀ k ∈ o.deltas.map Prod.fst, view1 k = view2 k) :
    o.try_materialize view1 = o.try_materialize view2 := by
  unfold VMOutput.try_materialize
  rw [resolveDeltas_congr view1 view2 o.deltas h]

/-- Claim C3: when the VM itself reports an execution error, execute returns
Abort carrying exactly that VM status as the failure detail, with no trace
emitted; the embedding invokes the VM once, so no retry happens internally. -/
theorem execute_vm_error_aborts (task : AptosExecutorTask) (view : View) (txn : Txn)
    (idx : Nat) (mat : Bool) (e : VMStatus)
    (hvm : task.vm.execute_single_transaction txn (task.vm.as_move_resolver view) =
      .error e) :
    task.execute_transaction view txn idx mat = some (.Abort e, []) := by
  unfold AptosExecutorTask.execute_transaction
  rw [hvm]

theorem execute_vm_error_aborts_witness :
    taskC3.execute_transaction viewEmpty 0 0 false = some (.Abort 42, []) :=
  execute_vm_error_aborts taskC3 viewEmpty 0 0 false 42 rfl

/-- Claim C4: when deltas are to be materialized and resolution against the
view fails, execute aborts the process (embedded as the none result), so in
particular the failure is never reported as a per-transaction Abort. -/
theorem execute_materialization_failure_fatal (task : AptosExecutorTask) (view : View)
    (txn : Txn) (idx : Nat) (st : VMStatus) (out : VMOutput) (sender : Option Sender)
    (hvm : task.vm.execute_single_transaction txn (task.vm.as_move_resolver view) =
      .ok (st, out, sender))
    (hm : out.try_materialize view = none) :
    task.execute_transaction view txn idx true = none := by
  unfold AptosExecutorTask.execute_transaction
  rw [hvm]
  simp [hm]

theorem execute_materialization_failure_fatal_witness :
    taskC4.execute_transaction viewEmpty 0 0 true = none :=
  execute_materialization_failure_fatal taskC4 viewEmpty 0 0 0 outC4 (some 2) rfl rfl

/-- Claim C5: with no new value supplied, convert_to_value builds the Delete
operation for both values of the creation flag, and a successful conversion
yields an operation of Deletion class. -/
theorem convert_none_builds_deletion (task : AptosExecutorTask) (view : View)
    (key : StateKey) (creation : Bool) :
    buildMoveOp none creation = MoveStorageOp.Delete ∧
    okImplies (task.convert_to_value view key none creation)
      WriteOp.isDeletionClass = true := by
  have hb : buildMoveOp none creation = MoveStorageOp.Delete := by
    cases creation <;> rfl
  refine ⟨hb, ?_⟩
  simp only [AptosExecutorTask.convert_to_value, WriteOpConverter.convert,
    WriteOpConverter.new, hb]
  cases hmeta : task.vm.sem.metaFor (task.vm.as_move_resolver view)
      task.vm.is_storage_slot_metadata_enabled key MoveStorageOp.Delete with
  | error e => simp [hmeta, okImplies]
  | ok m => simp [hmeta, okImplies, WriteOp.isDeletionClass]

/-- Claim C6: with a non-empty new value, convert_to_value builds the New
operation when the creation flag is set and the Modify operation when it is
not, and a successful conversion yields a Creation-class respectively
Modification-class write operation. -/
theorem convert_some_builds_creation_or_modification (task : AptosExecutorTask)
    (view : View) (key : StateKey) (v : Bytes) (hv : v ≠ []) :
    buildMoveOp (some v) true = MoveStorageOp.New v ∧
    buildMoveOp (some v) false = MoveStorageOp.Modify v ∧
    okImplies (task.convert_to_value view key (some v) true)
      WriteOp.isCreationClass = true ∧
    okImplies (task.convert_to_value view key (some v) false)
      WriteOp.isModificationClass = true := by
  refine ⟨rfl, rfl, ?_, ?_⟩
  · simp only [AptosExecutorTask.convert_to_value, WriteOpConverter.convert,
      WriteOpConverter.new, buildMoveOp]
    cases hmeta : task.vm.sem.metaFor (task.vm.as_move_resolver view)
        task.vm.is_storage_slot_metadata_enabled key (MoveStorageOp.New v) with
    | error e => simp [hmeta, okImplies]
    | ok m => simp [hmeta, okImplies, WriteOp.isCreationClass]
  · simp only [AptosExecutorTask.convert_to_value, WriteOpConverter.convert,
      WriteOpConverter.new, buildMoveOp]
    cases hmeta : task.vm.sem.metaFor (task.vm.as_move_resolver view)
        task.vm.is_storage_slot_metadata_enabled key (MoveStorageOp.Modify v) with
    | error e => simp [hmeta, okImplies]
    | ok m => simp [hmeta, okImplies, WriteOp.isModificationClass]

theorem convert_some_builds_creation_or_modification_witness :
    buildMoveOp (some [1]) true = MoveStorageOp.New [1] ∧
    buildMoveOp (some [1]) false = MoveStorageOp.Modify [1] ∧
    okImplies (taskC6.convert_to_value viewEmpty 0 (some [1]) true)
      WriteOp.isCreationClass = true ∧
    okImplies (taskC6.convert_to_value viewEmpty 0 (some [1]) false)
      WriteOp.isModificationClass = true :=
  convert_some_builds_creation_or_modification taskC6 viewEmpty 0 [1] (by decide)

/-- Claim C7: whenever the metadata-aware conversion fails, for any concrete
cause, convert_to_value returns the one generic conversion error, whose
content does not depend on that cause. -/
theorem convert_error_cause_erased (task : AptosExecutorTask) (view : View)
    (key : StateKey) (maybe_blob : Option Bytes) (creation : Bool) (e : ConvErr)
    (hfail : (WriteOpConverter.new (task.vm.as_move_resolver view)
        task.vm.is_storage_slot_metadata_enabled task.vm.sem.metaFor).convert key
        (buildMoveOp maybe_blob creation) false = .error e) :
    task.convert_to_value view key maybe_blob creation =
      .error "Error on converting to WriteOp" := by
  simp only [AptosExecutorTask.convert_to_value]
  rw [hfail]

theorem convert_error_cause_erased_witness :
    taskC7.convert_to_value viewEmpty 0 (some [1]) true =
      .error "Error on converting to WriteOp" :=
  convert_error_cause_erased taskC7 viewEmpty 0 (some [1]) true 9 rfl

/-- Claim C8: init always returns a constructed task: the warm-up load
result is discarded, so for every outcome of the module load the base view
handle is the argument and the VM agrees with a freshly constructed one on
everything except possibly its bytecode cache. -/
theorem init_always_constructs (sem : VMSem) (argument : View) :
    (AptosExecutorTask.init sem argument).base_view = argument ∧
    (AptosExecutorTask.init sem argument).vm.config =
      (AptosVM.new sem (StorageAdapter.new argument)).config ∧
    (AptosExecutorTask.init sem argument).vm.sem =
      (AptosVM.new sem (StorageAdapter.new argument)).sem := by
  simp only [AptosExecutorTask.init, AptosVM.load_module]
  split <;> exact ⟨trivial, rfl, rfl⟩

/-- On VM success, any status the adapter returns arises by classifying the
possibly materialized output: SkipRest or Success on that exact output, with
the discard diagnostic and the reconfiguration info as traces. -/
theorem execute_ok_destruct (task : AptosExecutorTask) (view : View) (txn : Txn)
    (idx : Nat) (mat : Bool) (st : VMStatus) (out : VMOutput) (sender : Option Sender)
    (res : ExecutionStatus AptosTransactionOutput VMStatus) (tr : List TraceEvent)
    (hvm : task.vm.execute_single_transaction txn (task.vm.as_move_resolver view) =
      .ok (st, out, sender))
    (hex : task.execute_transaction view txn idx mat = some (res, tr)) :
    ∃ out2, (if mat then out.try_materialize view else some out) = some out2 ∧
      res = (if AptosVM.should_restart_execution out2 then
          ExecutionStatus.SkipRest (AptosTransactionOutput.new out2)
        else ExecutionStatus.Success (AptosTransactionOutput.new out2)) ∧
      tr = (if out2.discarded then [expectedDiscardTrace sender st] else []) ++
        (if AptosVM.should_restart_execution out2 then [TraceEvent.reconfigInfo]
          else []) := by
  unfold AptosExecutorTask.execute_transaction at hex
  rw [hvm] at hex
  simp only [] at hex
  cases hmo : (if mat then out.try_materialize view else some out) with
  | none => rw [hmo] at hex; exact absurd hex (by simp)
  | some out2 =>
    rw [hmo] at hex
    simp only [] at hex
    refine ⟨out2, rfl, ?_⟩
    cases hr : AptosVM.should_restart_execution out2 with
    | false =>
      have hnr : ¬ (AptosVM.should_restart_execution out2 = true) := by simp [hr]
      rw [if_neg hnr] at hex
      simp only [Option.some.injEq, Prod.mk.injEq] at hex
      obtain ⟨h1, h2⟩ := hex
      simp only [Bool.false_eq_true, if_false, List.append_nil]
      exact ⟨h1.symm, h2.symm⟩
    | true =>
      rw [if_pos hr] at hex
      simp only [Option.some.injEq, Prod.mk.injEq] at hex
      obtain ⟨h1, h2⟩ := hex
      simp only [eq_self_iff_true, if_true]
      exact ⟨h1.symm, h2.symm⟩

/-- Claim C1: whenever the VM execution succeeds and its output sets the
reconfiguration flag, execute returns SkipRest and never Success, whatever
the transaction's own pass, fail or discard status. -/
theorem execute_reconfig_yields_skiprest (task : AptosExecutorTask) (view : View)
    (txn : Txn) (idx : Nat) (mat : Bool) (st : VMStatus) (out : VMOutput)
    (sender : Option Sender) (res : ExecutionStatus AptosTransactionOutput VMStatus)
    (tr : List TraceEvent)
    (hvm : task.vm.execute_single_transaction txn (task.vm.as_move_resolver view) =
      .ok (st, out, sender))
    (hre : AptosVM.should_restart_execution out = true)
    (hex : task.execute_transaction view txn idx mat = some (res, tr)) :
    res.isSkipRest = true ∧ res.isSuccess = false := by
  obtain ⟨out2, hmo, hres, -⟩ :=
    execute_ok_destruct task view txn idx mat st out sender res tr hvm hex
  have hout2 : out2.reconfig = true := by
    cases mat with
    | false =>
      simp only [Bool.false_eq_true, if_false, Option.some.injEq] at hmo
      rw [← hmo]
      exact hre
    | true =>
      rw [if_pos rfl] at hmo
      exact (try_materialize_flags out out2 view hmo).1.trans hre
  have hsr : AptosVM.should_restart_execution out2 = true := hout2
  rw [hres, if_pos hsr]
  exact ⟨rfl, rfl⟩

theorem execute_reconfig_yields_skiprest_witness :
    (ExecutionStatus.SkipRest (AptosTransactionOutput.new outC1) :
      ExecutionStatus AptosTransactionOutput VMStatus).isSkipRest = true ∧
    (ExecutionStatus.SkipRest (AptosTransactionOutput.new outC1) :
      ExecutionStatus AptosTransactionOutput VMStatus).isSuccess = false :=
  execute_reconfig_yields_skiprest taskC1 viewEmpty 0 0 false 0 outC1 (some 7)
    (ExecutionStatus.SkipRest (AptosTransactionOutput.new outC1))
    [TraceEvent.reconfigInfo] rfl rfl rfl

/-- Claim C2: whenever the VM execution succeeds but the output status is
discarded, execute never returns Abort, and the trace it emits contains
exactly one diagnostic event: the one naming the sender when a sender is
known, and the malformed-input note otherwise. -/
theorem execute_discarded_not_abort (task : AptosExecutorTask) (view : View)
    (txn : Txn) (idx : Nat) (mat : Bool) (st : VMStatus) (out : VMOutput)
    (sender : Option Sender) (res : ExecutionStatus AptosTransactionOutput VMStatus)
    (tr : List TraceEvent)
    (hvm : task.vm.execute_single_transaction txn (task.vm.as_move_resolver view) =
      .ok (st, out, sender))
    (hd : out.discarded = true)
    (hex : task.execute_transaction view txn idx mat = some (res, tr)) :
    res.isAbort = false ∧
    tr.filter TraceEvent.isDiagnostic = [expectedDiscardTrace sender st] := by
  obtain ⟨out2, hmo, hres, htr⟩ :=
    execute_ok_destruct task view txn idx mat st out sender res tr hvm hex
  have hd2 : out2.discarded = true := by
    cases mat with
    | false =>
      simp only [Bool.false_eq_true, if_false, Option.some.injEq] at hmo
      rw [← hmo]
      exact hd
    | true =>
      rw [if_pos rfl] at hmo
      exact (try_materialize_flags out out2 view hmo).2.trans hd
  constructor
  · rw [hres]
    cases hsr : AptosVM.should_restart_execution out2 with
    | false => simp only [Bool.false_eq_true, if_false]; rfl
    | true => simp only [eq_self_iff_true, if_true]; rfl
  · rw [htr, if_pos hd2]
    cases hsr : AptosVM.should_restart_execution out2 with
    | false =>
      simp only [Bool.false_eq_true, if_false, List.append_nil]
      simp [List.filter_cons, expectedDiscardTrace_isDiagnostic]
    | true =>
      simp only [eq_self_iff_true, if_true]
      simp [List.filter_cons, expectedDiscardTrace_isDiagnostic, reconfigInfo_not_diagnostic]

theorem execute_discarded_not_abort_witness :
    (ExecutionStatus.Success (AptosTransactionOutput.new outC2) :
      ExecutionStatus AptosTransactionOutput VMStatus).isAbort = false ∧
    ([TraceEvent.discardedWithSender 5 3].filter TraceEvent.isDiagnostic) =
      [expectedDiscardTrace (some 5) 3] :=
  execute_discarded_not_abort taskC2 viewEmpty 0 0 false 3 outC2 (some 5)
    (ExecutionStatus.Success (AptosTransactionOutput.new outC2))
    [TraceEvent.discardedWithSender 5 3] rfl rfl rfl

/-- Mapping a view over keys only depends on the view at those keys. -/
theorem map_view_congr (view1 view2 : View) (ks : List StateKey)
    (h : ∀ k ∈ ks, view1 k = view2 k) : ks.map view1 = ks.map view2 := by
  induction ks with
  | nil => rfl
  | cons k ks ih =>
    have hk : view1 k = view2 k := h k (by simp)
    have ht := ih (fun x hx => h x (by simp [hx]))
    simp only [List.map_cons, hk, ht]

/-- Claim C9: execute is deterministic with respect to the view: for the
same transaction, index and materialization flag, two views that agree on
every key the attempt actually reads produce identical results. -/
theorem execute_deterministic_on_read_agreement (task : AptosExecutorTask)
    (view1 view2 : View) (txn : Txn) (idx : Nat) (mat : Bool)
    (hagree : ∀ k ∈ task.keys_read view1 txn mat, view1 k = view2 k) :
    task.execute_transaction view1 txn idx mat =
      task.execute_transaction view2 txn idx mat := by
  have hreads : ∀ k ∈ task.vm.sem.readKeys txn, view1 k = view2 k := by
    intro k hk
    apply hagree
    unfold AptosExecutorTask.keys_read
    cases hvm : task.vm.execute_single_transaction txn (task.vm.as_move_resolver view1) with
    | ok t =>
      obtain ⟨st, out, sender⟩ := t
      cases mat <;> simp [hk]
    | error e => simpa using hk
  have hsingle : task.vm.execute_single_transaction txn (task.vm.as_move_resolver view1) =
      task.vm.execute_single_transaction txn (task.vm.as_move_resolver view2) := by
    unfold AptosVM.execute_single_transaction AptosVM.as_move_resolver
    rw [map_view_congr view1 view2 (task.vm.sem.readKeys txn) hreads]
  unfold AptosExecutorTask.execute_transaction
  rw [← hsingle]
  cases hvm : task.vm.execute_single_transaction txn (task.vm.as_move_resolver view1) with
  | error e => rfl
  | ok t =>
    obtain ⟨st, out, sender⟩ := t
    cases mat with
    | false => rfl
    | true =>
      have hdeltas : ∀ k ∈ out.deltas.map Prod.fst, view1 k = view2 k := by
        intro k hk
        apply hagree
        unfold AptosExecutorTask.keys_read
        rw [hvm]
        simp [hk]
      simp only []
      rw [try_materialize_congr out view1 view2 hdeltas]

theorem execute_deterministic_on_read_agreement_witness :
    taskC9.execute_transaction viewC9a 0 0 false =
      taskC9.execute_transaction viewC9b 0 0 false :=
  execute_deterministic_on_read_agreement taskC9 viewC9a viewC9b 0 0 false (by decide)

/-- Claim C10: on VM success the payload of the returned status is exactly
the raw VM output, altered only by delta materialization when it was
requested: with the flag false the raw output is carried with its deltas
unresolved and no key is read for materialization, and with the flag true
the payload is exactly the materialized output (and nothing is returned
when materialization fails); classification never alters the output. -/
theorem execute_output_frame (task : AptosExecutorTask) (view : View) (txn : Txn)
    (idx : Nat) (st : VMStatus) (out : VMOutput) (sender : Option Sender)
    (hvm : task.vm.execute_single_transaction txn (task.vm.as_move_resolver view) =
      .ok (st, out, sender)) :
    executePayload (task.execute_transaction view txn idx false) =
      some (AptosTransactionOutput.new out) ∧
    task.keys_read view txn false = task.vm.sem.readKeys txn ∧
    executePayload (task.execute_transaction view txn idx true) =
      (out.try_materialize view).map AptosTransactionOutput.new := by
  refine ⟨?_, ?_, ?_⟩
  · unfold AptosExecutorTask.execute_transaction
    rw [hvm]
    simp only [Bool.false_eq_true, if_false]
    cases hsr : AptosVM.should_restart_execution out with
    | false =>
      rw [if_neg (by simp [hsr])]
      rfl
    | true =>
      simp only [eq_self_iff_true, if_true]
      rfl
  · unfold AptosExecutorTask.keys_read
    rw [hvm]
    simp only [Bool.false_eq_true, if_false]
  · unfold AptosExecutorTask.execute_transaction
    rw [hvm]
    simp only [eq_self_iff_true, if_true]
    cases hmm : out.try_materialize view with
    | none => rfl
    | some out2 =>
      simp only []
      cases hsr : AptosVM.should_restart_execution out2 with
      | false =>
        rw [if_neg (by simp [hsr])]
        rfl
      | true =>
        simp only [eq_self_iff_true, if_true]
        rfl

theorem execute_output_frame_witness :
    executePayload (taskC10.execute_transaction viewC10 0 0 false) =
      some (AptosTransactionOutput.new outC10) ∧
    taskC10.keys_read viewC10 0 false = taskC10.vm.sem.readKeys 0 ∧
    executePayload (taskC10.execute_transaction viewC10 0 0 true) =
      (outC10.try_materialize viewC10).map AptosTransactionOutput.new :=
  execute_output_frame taskC10 viewC10 0 0 0 outC10 (some 2) rfl

end VmWrapper
